import Mathlib

/-!
Shallow embedding of `scripts/data_annotation/clean_topics.py`.

Python strings are modelled as Lean `String`; operations used by the
script (`in` substring test, `split(" OR ")[0]`, `.strip()`, `.lower()`)
are defined below over the character list `String.data`.  A JSON article
record is modelled as a `Topic` field (`Option String`, `none` = key
absent) together with an opaque payload of the remaining fields.
-/

/-- Does `hay` start with `needle`?  (helper for the substring test). -/
def startsWithChars : List Char → List Char → Bool
  | [], _ => true
  | _ :: _, [] => false
  | a :: as, b :: bs => a == b && startsWithChars as bs

/-- Does `needle` occur anywhere in `hay`?  Models Python `needle in hay`. -/
def containsAt (needle : List Char) : List Char → Bool
  | [] => startsWithChars needle []
  | c :: rest => startsWithChars needle (c :: rest) || containsAt needle rest

/-- Python `needle in hay` on strings. -/
def strContains (hay needle : String) : Bool :=
  containsAt needle.data hay.data

/-- Characters strictly before the first occurrence of `sep` (whole list when
`sep` does not occur).  Models Python `hay.split(sep)[0]` for nonempty `sep`. -/
def takeBeforeChars (sep : List Char) : List Char → List Char
  | [] => []
  | c :: rest =>
    if startsWithChars sep (c :: rest) then [] else c :: takeBeforeChars sep rest

/-- Python `s.split(sep)[0]` for nonempty `sep`. -/
def strTakeBefore (s sep : String) : String :=
  String.mk (takeBeforeChars sep.data s.data)

/-- Python `s.strip()`: drop leading and trailing whitespace. -/
def strTrim (s : String) : String :=
  String.mk (((s.data.dropWhile Char.isWhitespace).reverse.dropWhile
      Char.isWhitespace).reverse)

/-- Python `s.lower()` (ASCII case folding, which covers every keyword the
script compares against). -/
def strLower (s : String) : String :=
  String.mk (s.data.map Char.toLower)

/-- `MAIN_TOPICS` from the script: the 8 canonical topics (the Python set is
modelled as a list; only membership is ever used). -/
def MAIN_TOPICS : List String :=
  [ "Election Victory/Results",
    "Trump Conflicts",
    "Israel/Palestine/Antisemitism",
    "Personal Background/Family",
    "Controversies/Personal Attacks",
    "Policy Positions",
    "Campaign/Endorsements",
    "India/Hindu Relations" ]

/-- `TOPIC_MAPPING` from the script: exact synonym table, in source order. -/
def TOPIC_MAPPING : List (String × String) :=
  [ ("Election Victory/Results", "Election Victory/Results"),
    ("Election results / official reporting", "Election Victory/Results"),
    ("Election results / victory speech", "Election Victory/Results"),
    ("Election results / policy coverage", "Election Victory/Results"),
    ("Electoral coverage / horse race", "Election Victory/Results"),
    ("Trump Conflicts", "Trump Conflicts"),
    ("Trump / GOP reactions", "Trump Conflicts"),
    ("Israel/Palestine/Antisemitism", "Israel/Palestine/Antisemitism"),
    ("Personal Background/Family", "Personal Background/Family"),
    ("Personal background / identity", "Personal Background/Family"),
    ("Controversies/Personal Attacks", "Controversies/Personal Attacks"),
    ("Criticism / scandal / accusations", "Controversies/Personal Attacks"),
    ("Public backlash / mockery", "Controversies/Personal Attacks"),
    ("Political attacks / debate coverage", "Controversies/Personal Attacks"),
    ("Policy Positions", "Policy Positions"),
    ("Policing / NYPD controversy", "Policy Positions"),
    ("Crime & public safety narratives", "Policy Positions"),
    ("Crime / economic anxiety", "Policy Positions"),
    ("Fearmongering / crime / public reaction", "Policy Positions"),
    ("Right-wing fear narratives", "Policy Positions"),
    ("Support & voter appeal", "Campaign/Endorsements"),
    ("Campaign/Endorsements", "Campaign/Endorsements"),
    ("India/Hindu Relations", "India/Hindu Relations") ]

/-- Python `t in MAIN_TOPICS` (or any membership in a list of strings). -/
def elemString (t : String) : List String → Bool
  | [] => false
  | s :: rest => t == s || elemString t rest

/-- Python `TOPIC_MAPPING[t]` guarded by `t in TOPIC_MAPPING` (first matching
key wins; keys are distinct in the source table). -/
def lookupTopic (t : String) : List (String × String) → Option String
  | [] => none
  | (k, v) :: rest => if t == k then some v else lookupTopic t rest

/-- Keyword group of the election branch of `standardize_topic`. -/
def electionKeywords : List String :=
  ["election", "victory", "results", "win", "electoral"]

/-- Keyword group of the Trump branch. -/
def trumpKeywords : List String :=
  ["trump", "gop", "republican"]

/-- Keyword group of the Israel/Palestine branch. -/
def israelKeywords : List String :=
  ["israel", "palestine", "antisemitism", "antisemite", "jewish", "jihadist",
   "hamas", "bds"]

/-- Keyword group of the personal-background branch. -/
def personalKeywords : List String :=
  ["personal", "background", "family", "identity", "net worth", "biography"]

/-- Keyword group of the policy branch. -/
def policyKeywords : List String :=
  ["policy", "policing", "crime", "safety", "nypd", "tax", "billionaire",
   "economic"]

/-- Keyword group of the campaign branch. -/
def campaignKeywords : List String :=
  ["campaign", "endorsement", "support", "voter", "appeal", "pac"]

/-- Keyword group of the India/Hindu branch. -/
def indiaKeywords : List String :=
  ["india", "hindu", "modi", "kangana", "bollywood"]

/-- Keyword group of the controversy catch-all branch. -/
def controversyKeywords : List String :=
  ["controversy", "attack", "scandal", "criticism", "backlash", "mockery"]

/-- Python `any(keyword in tl for keyword in ks)`. -/
def anyKeywordIn (tl : String) (ks : List String) : Bool :=
  ks.any fun k => strContains tl k

/-- The eight ordered keyword tests of `standardize_topic` (lines 92-124):
the first group with a substring match wins; `none` when no group matches,
which is exactly when the script prints its warning. -/
def keywordTopic (topicLower : String) : Option String :=
  if anyKeywordIn topicLower electionKeywords then some "Election Victory/Results"
  else if anyKeywordIn topicLower trumpKeywords then some "Trump Conflicts"
  else if anyKeywordIn topicLower israelKeywords then some "Israel/Palestine/Antisemitism"
  else if anyKeywordIn topicLower personalKeywords then some "Personal Background/Family"
  else if anyKeywordIn topicLower policyKeywords then some "Policy Positions"
  else if anyKeywordIn topicLower campaignKeywords then some "Campaign/Endorsements"
  else if anyKeywordIn topicLower indiaKeywords then some "India/Hindu Relations"
  else if anyKeywordIn topicLower controversyKeywords then some "Controversies/Personal Attacks"
  else none

/-- Lines 79-81 of the script: if the topic contains `" OR "`, keep the part
before the first occurrence and strip it; otherwise leave it unchanged. -/
def orSplit (t : String) : String :=
  if strContains t " OR " then strTrim (strTakeBefore t " OR ") else t

/-- The resolution pipeline of `standardize_topic` after the `None`/empty and
OR-split handling: canonical check, synonym table, keyword groups, default. -/
def resolveTopic (t : String) : String :=
  if elemString t MAIN_TOPICS then t
  else
    match lookupTopic t TOPIC_MAPPING with
    | some mapped => mapped
    | none =>
      match keywordTopic (strLower t) with
      | some k => k
      | none => "Controversies/Personal Attacks"

/-- `True` exactly when the script reaches its `Warning: Could not categorize
topic` print: no canonical match, no synonym-table match, no keyword match. -/
def warnsUnmapped (t : String) : Bool :=
  !elemString t MAIN_TOPICS && (lookupTopic t TOPIC_MAPPING).isNone
    && (keywordTopic (strLower t)).isNone

/-- `standardize_topic` from the script.  The argument is `Option String`:
`none` models Python `None`; `none` and `some ""` both fail the
`if not topic` truthiness test and return the default. -/
def standardize_topic : Option String → String
  | none => "Controversies/Personal Attacks"
  | some t =>
    if t == "" then "Controversies/Personal Attacks"
    else resolveTopic (orSplit t)

/-- A JSON article record: the `"Topic"` field (`none` = key absent) and an
opaque payload standing for every other field of the record. -/
structure Article (α : Type) where
  topic : Option String
  others : α

/-- Python `article.get("Topic", "")`. -/
def getRawTopic {α : Type} (a : Article α) : String :=
  a.topic.getD ""

/-- The loop body of `clean_annotated_articles`: set the `"Topic"` field to the
standardized topic; every other field is untouched. -/
def cleanArticle {α : Type} (a : Article α) : Article α :=
  { a with topic := some (standardize_topic (some (getRawTopic a))) }

/-- `clean_annotated_articles` restricted to its data transformation: the
script reads a JSON array, rewrites each record's `"Topic"` in place in order
(the statistics it also gathers do not touch the records), and writes the
array back out. -/
def clean_annotated_articles {α : Type} (articles : List (Article α)) :
    List (Article α) :=
  articles.map cleanArticle

/-! Helper lemmas. -/

theorem elemString_mem {t : String} : ∀ {l : List String},
    elemString t l = true → t ∈ l := by
  intro l
  induction l with
  | nil => intro h; exact absurd h (by simp [elemString])
  | cons s rest ih =>
    intro h
    rw [elemString, Bool.or_eq_true] at h
    rcases h with h | h
    · exact (eq_of_beq h) ▸ List.mem_cons_self s rest
    · exact List.mem_cons_of_mem s (ih h)

theorem lookupTopic_mem {t v : String} : ∀ {l : List (String × String)},
    lookupTopic t l = some v → v ∈ l.map Prod.snd := by
  intro l
  induction l with
  | nil => intro h; exact absurd h (by simp [lookupTopic])
  | cons p rest ih =>
    intro h
    rcases p with ⟨k, w⟩
    rw [lookupTopic] at h
    by_cases hk : (t == k) = true
    · rw [if_pos hk] at h
      injection h with h
      subst h
      simp only [List.map_cons]
      exact List.mem_cons_self _ _
    · rw [if_neg hk] at h
      simp only [List.map_cons]
      exact List.mem_cons_of_mem _ (ih h)

theorem mapping_values_canonical :
    ∀ v ∈ TOPIC_MAPPING.map Prod.snd, v ∈ MAIN_TOPICS := by decide

theorem keywordTopic_mem {tl k : String} (h : keywordTopic tl = some k) :
    k ∈ MAIN_TOPICS := by
  rw [keywordTopic] at h
  repeat' split at h
  all_goals
    first
    | (injection h with h; subst h; decide)
    | exact Option.noConfusion h

theorem resolveTopic_mem (t : String) : resolveTopic t ∈ MAIN_TOPICS := by
  rw [resolveTopic]
  by_cases h1 : elemString t MAIN_TOPICS = true
  · rw [if_pos h1]; exact elemString_mem h1
  · rw [if_neg h1]
    cases h2 : lookupTopic t TOPIC_MAPPING with
    | some mapped =>
      exact mapping_values_canonical mapped (lookupTopic_mem h2)
    | none =>
      cases h3 : keywordTopic (strLower t) with
      | some k => exact keywordTopic_mem h3
      | none => decide

theorem standardize_topic_mem (x : Option String) :
    standardize_topic x ∈ MAIN_TOPICS := by
  cases x with
  | none => decide
  | some t =>
    rw [standardize_topic]
    by_cases h : (t == "") = true
    · rw [if_pos h]; decide
    · rw [if_neg h]; exact resolveTopic_mem (orSplit t)

theorem warns_imp_default {t : String} (h : warnsUnmapped t = true) :
    resolveTopic t = "Controversies/Personal Attacks" := by
  rw [warnsUnmapped, Bool.and_eq_true, Bool.and_eq_true] at h
  obtain ⟨⟨h1, h2⟩, h3⟩ := h
  rw [resolveTopic, if_neg (by simpa using h1)]
  rw [Option.isNone_iff_eq_none] at h2 h3
  rw [h2, h3]

/-! The claims. -/

/-- C1: for every input (`None` or any string), `standardize_topic` returns a
member of the 8-element canonical topic set: it is total and closed over
`MAIN_TOPICS`. -/
theorem standardize_topic_closed (x : Option String) :
    standardize_topic x ∈ MAIN_TOPICS :=
  standardize_topic_mem x

/-- C2: after `clean_annotated_articles` processes a list of records, every
record's `"Topic"` field holds a member of the canonical topic set. -/
theorem clean_articles_topics_canonical {α : Type} (arts : List (Article α))
    (a : Article α) (ha : a ∈ clean_annotated_articles arts) :
    ∃ t, a.topic = some t ∧ t ∈ MAIN_TOPICS := by
  rw [clean_annotated_articles, List.mem_map] at ha
  obtain ⟨b, _, hb⟩ := ha
  exact ⟨_, by rw [← hb]; rfl, standardize_topic_mem _⟩

/-- C2 witness: a concrete one-record batch. -/
theorem clean_articles_topics_canonical_witness :
    ∃ t, (cleanArticle (⟨some "foo", 0⟩ : Article Nat)).topic = some t ∧
      t ∈ MAIN_TOPICS :=
  clean_articles_topics_canonical [(⟨some "foo", 0⟩ : Article Nat)]
    (cleanArticle ⟨some "foo", 0⟩)
    (by simp [clean_annotated_articles])

theorem strContains_empty_false : strContains "" " OR " = false := by decide

/-- C3: on any string containing `" OR "`, `standardize_topic` keeps only the
(stripped) substring before the first occurrence and resolves that substring
through the remaining pipeline; on the spec's example the first alternative
`"Coverage of Modi visit"` keyword-matches to `"India/Hindu Relations"`. -/
theorem standardize_topic_or_split :
    (∀ s : String, strContains s " OR " = true →
      standardize_topic (some s) = resolveTopic (strTrim (strTakeBefore s " OR "))) ∧
    standardize_topic (some "Coverage of Modi visit OR Bollywood reaction")
      = "India/Hindu Relations" := by
  constructor
  · intro s h
    have hne : (s == "") = false := by
      rcases Bool.eq_false_or_eq_true (s == "") with ht | hf
      · rw [eq_of_beq ht, strContains_empty_false] at h
        exact Bool.noConfusion h
      · exact hf
    rw [standardize_topic, if_neg (by simp [hne]), orSplit, if_pos h]
  · decide

/-- C3 witness: the universal part applied at a concrete string. -/
theorem standardize_topic_or_split_witness :
    standardize_topic (some "A OR B")
      = resolveTopic (strTrim (strTakeBefore "A OR B" " OR ")) :=
  standardize_topic_or_split.1 "A OR B" (by decide)

theorem warns_orSplit_default {s : String}
    (h : warnsUnmapped (orSplit s) = true) :
    standardize_topic (some s) = "Controversies/Personal Attacks" := by
  by_cases hs : (s == "") = true
  · rw [standardize_topic, if_pos hs]
  · rw [standardize_topic, if_neg hs]
    exact warns_imp_default h

/-- C4: `None` and the empty string map to the default
`"Controversies/Personal Attacks"`, and any input whose (OR-split) label
matches no resolution stage also maps to the default while triggering the
script's unmapped-label warning; the spec's gibberish example does exactly
that. -/
theorem standardize_topic_default_fallback :
    standardize_topic none = "Controversies/Personal Attacks" ∧
    standardize_topic (some "") = "Controversies/Personal Attacks" ∧
    (∀ s : String, warnsUnmapped (orSplit s) = true →
      standardize_topic (some s) = "Controversies/Personal Attacks") ∧
    (standardize_topic (some "totally unrelated gibberish")
        = "Controversies/Personal Attacks" ∧
      warnsUnmapped "totally unrelated gibberish" = true) := by
  refine ⟨rfl, rfl, ?_, by decide⟩
  intro s h
  exact warns_orSplit_default h

/-- C4 witness: the universal part applied at a concrete unmapped label. -/
theorem standardize_topic_default_fallback_witness :
    standardize_topic (some "zzz") = "Controversies/Personal Attacks" :=
  standardize_topic_default_fallback.2.2.1 "zzz" (by decide)

/-- C5: every canonical topic is a fixed point of `standardize_topic`, and
consequently `standardize_topic` is idempotent on every input. -/
theorem standardize_topic_idempotent :
    (∀ t ∈ MAIN_TOPICS, standardize_topic (some t) = t) ∧
    (∀ x : Option String,
      standardize_topic (some (standardize_topic x)) = standardize_topic x) := by
  have hfix : ∀ t ∈ MAIN_TOPICS, standardize_topic (some t) = t := by decide
  exact ⟨hfix, fun x => hfix _ (standardize_topic_mem x)⟩

/-- C5 witness: a concrete canonical topic is fixed. -/
theorem standardize_topic_idempotent_witness :
    standardize_topic (some "Trump Conflicts") = "Trump Conflicts" :=
  standardize_topic_idempotent.1 "Trump Conflicts" (by decide)

/-- C6: when the (OR-split) label is not canonical but is an exact key of the
synonym table, `standardize_topic` returns the table's value; the spec's
example `"Election results / victory speech"` maps to
`"Election Victory/Results"`. -/
theorem standardize_topic_mapping_lookup :
    (∀ t v : String, elemString (orSplit t) MAIN_TOPICS = false →
      lookupTopic (orSplit t) TOPIC_MAPPING = some v →
      standardize_topic (some t) = v) ∧
    standardize_topic (some "Election results / victory speech")
      = "Election Victory/Results" := by
  constructor
  · intro t v h1 h2
    have hne : (t == "") = false := by
      rcases Bool.eq_false_or_eq_true (t == "") with ht | hf
      swap
      · exact hf
      · rw [eq_of_beq ht] at h2
        rw [show orSplit "" = "" from rfl] at h2
        rw [show lookupTopic "" TOPIC_MAPPING = none from by decide] at h2
        exact Option.noConfusion h2
    rw [standardize_topic, if_neg (by simp [hne]), resolveTopic,
      if_neg (by simp [h1]), h2]
  · decide

/-- C6 witness: the universal part applied at a concrete synonym key. -/
theorem standardize_topic_mapping_lookup_witness :
    standardize_topic (some "Election results / official reporting")
      = "Election Victory/Results" :=
  standardize_topic_mapping_lookup.1 "Election results / official reporting"
    "Election Victory/Results" (by decide) (by decide)

/-- C7 counterexample: `"election crime scandal"` matches both a policy
keyword (`"crime"`) and a controversy keyword (`"scandal"`), yet it resolves
to `"Election Victory/Results"`, not `"Policy Positions"`, because the
election group is checked before the policy group. -/
theorem keyword_precedence_counterexample :
    anyKeywordIn (strLower "election crime scandal") policyKeywords = true ∧
    anyKeywordIn (strLower "election crime scandal") controversyKeywords = true ∧
    standardize_topic (some "election crime scandal") = "Election Victory/Results" ∧
    standardize_topic (some "election crime scandal") ≠ "Policy Positions" := by
  refine ⟨by decide, by decide, by decide, ?_⟩
  intro h
  exact absurd ((by decide :
    standardize_topic (some "election crime scandal")
      = "Election Victory/Results") ▸ h) (by decide)

/-- C7 (amended): when the (OR-split) label is neither canonical nor a
synonym-table key, `standardize_topic` lowercases it and applies the eight
ordered keyword groups, the first matching group winning (`keywordTopic`
is those ordered tests verbatim, defaulting when none matches); the spec's
example resolves through the election group; and a label reaching the
keyword stage that matches a policy keyword resolves to
`"Policy Positions"` provided no earlier group (election, Trump,
Israel/Palestine, personal background) matches — in particular when its
only other match is a controversy keyword, since that group is checked
later. -/
theorem keyword_order_amended :
    (∀ t : String, (t == "") = false →
      elemString (orSplit t) MAIN_TOPICS = false →
      lookupTopic (orSplit t) TOPIC_MAPPING = none →
      standardize_topic (some t)
        = (keywordTopic (strLower (orSplit t))).getD "Controversies/Personal Attacks") ∧
    standardize_topic (some "Some new election win coverage")
      = "Election Victory/Results" ∧
    (∀ t : String,
      elemString (orSplit t) MAIN_TOPICS = false →
      lookupTopic (orSplit t) TOPIC_MAPPING = none →
      anyKeywordIn (strLower (orSplit t)) electionKeywords = false →
      anyKeywordIn (strLower (orSplit t)) trumpKeywords = false →
      anyKeywordIn (strLower (orSplit t)) israelKeywords = false →
      anyKeywordIn (strLower (orSplit t)) personalKeywords = false →
      anyKeywordIn (strLower (orSplit t)) policyKeywords = true →
      standardize_topic (some t) = "Policy Positions") := by
  have hmain : ∀ t : String, (t == "") = false →
      elemString (orSplit t) MAIN_TOPICS = false →
      lookupTopic (orSplit t) TOPIC_MAPPING = none →
      standardize_topic (some t)
        = (keywordTopic (strLower (orSplit t))).getD "Controversies/Personal Attacks" := by
    intro t hne h1 h2
    rw [standardize_topic, if_neg (by simp [hne]), resolveTopic,
      if_neg (by simp [h1]), h2]
    cases keywordTopic (strLower (orSplit t)) with
    | some k => rfl
    | none => rfl
  refine ⟨hmain, by decide, ?_⟩
  intro t h1 h2 he ht hi hp hpol
  have hne : (t == "") = false := by
    rcases Bool.eq_false_or_eq_true (t == "") with heq | hf
    · rw [eq_of_beq heq] at hpol
      rw [show orSplit "" = "" from rfl] at hpol
      exact absurd hpol (by decide)
    · exact hf
  rw [hmain t hne h1 h2, keywordTopic, if_neg (by simp [he]),
    if_neg (by simp [ht]), if_neg (by simp [hi]), if_neg (by simp [hp]),
    if_pos hpol]
  rfl

/-- C7 witness: the precedence part applied at a concrete label that matches
a policy keyword and a controversy keyword and nothing earlier. -/
theorem keyword_order_amended_witness :
    standardize_topic (some "quiet tax scandal") = "Policy Positions" :=
  keyword_order_amended.2.2 "quiet tax scandal" (by decide) (by decide)
    (by decide) (by decide) (by decide) (by decide) (by decide)

/-- C8: `clean_annotated_articles` preserves the number and order of records;
record `i` of the output carries the standardized form of record `i` of the
input's `"Topic"` value (missing key read as `""`), and every other field of
record `i` is unchanged. -/
theorem clean_articles_shape {α : Type} (arts : List (Article α)) :
    (clean_annotated_articles arts).length = arts.length ∧
    ∀ (i : Nat) (h : i < arts.length)
      (h2 : i < (clean_annotated_articles arts).length),
      ((clean_annotated_articles arts).get ⟨i, h2⟩).topic
          = some (standardize_topic (some ((arts.get ⟨i, h⟩).topic.getD ""))) ∧
      ((clean_annotated_articles arts).get ⟨i, h2⟩).others
          = (arts.get ⟨i, h⟩).others := by
  refine ⟨by simp [clean_annotated_articles], ?_⟩
  intro i h h2
  simp [clean_annotated_articles, List.get_eq_getElem, List.getElem_map,
    cleanArticle, getRawTopic]

/-- C8 witness: a concrete one-record batch, index 0. -/
theorem clean_articles_shape_witness :
    ((clean_annotated_articles [(⟨some "x", 7⟩ : Article Nat)]).get
        ⟨0, by simp [clean_annotated_articles]⟩).topic
      = some (standardize_topic
          (some (([(⟨some "x", 7⟩ : Article Nat)].get ⟨0, by simp⟩).topic.getD ""))) ∧
    ((clean_annotated_articles [(⟨some "x", 7⟩ : Article Nat)]).get
        ⟨0, by simp [clean_annotated_articles]⟩).others
      = ([(⟨some "x", 7⟩ : Article Nat)].get ⟨0, by simp⟩).others :=
  (clean_articles_shape [(⟨some "x", 7⟩ : Article Nat)]).2 0 (by simp)
    (by simp [clean_annotated_articles])

/-- C9: a record with no `"Topic"` key does not make the cleaning loop fail:
its topic is read as `""` and therefore set to the default
`"Controversies/Personal Attacks"`. -/
theorem clean_articles_missing_topic {α : Type} (arts : List (Article α))
    (i : Nat) (h : i < arts.length)
    (h2 : i < (clean_annotated_articles arts).length)
    (hmiss : (arts.get ⟨i, h⟩).topic = none) :
    ((clean_annotated_articles arts).get ⟨i, h2⟩).topic
      = some "Controversies/Personal Attacks" := by
  simp only [clean_annotated_articles, List.get_eq_getElem,
    List.getElem_map] at h2 ⊢
  rw [cleanArticle]
  simp only [List.get_eq_getElem] at hmiss
  simp [getRawTopic, hmiss]
  rfl

/-- C9 witness: a concrete record lacking the `"Topic"` key. -/
theorem clean_articles_missing_topic_witness :
    ((clean_annotated_articles [(⟨none, 3⟩ : Article Nat)]).get
        ⟨0, by simp [clean_annotated_articles]⟩).topic
      = some "Controversies/Personal Attacks" :=
  clean_articles_missing_topic [(⟨none, 3⟩ : Article Nat)] 0 (by simp)
    (by simp [clean_annotated_articles]) (by simp)

/-- C10: `standardize_topic` is a pure function of its argument — the
canonical set, synonym table and keyword groups are fixed constants — so
equal inputs give equal outputs, in any position of any batch run. -/
theorem standardize_topic_deterministic :
    (∀ x y : Option String, x = y → standardize_topic x = standardize_topic y) ∧
    (∀ {α β : Type} (as : List (Article α)) (bs : List (Article β))
        (i j : Nat) (hi : i < as.length) (hj : j < bs.length)
        (hi2 : i < (clean_annotated_articles as).length)
        (hj2 : j < (clean_annotated_articles bs).length),
      (as.get ⟨i, hi⟩).topic = (bs.get ⟨j, hj⟩).topic →
      ((clean_annotated_articles as).get ⟨i, hi2⟩).topic
        = ((clean_annotated_articles bs).get ⟨j, hj2⟩).topic) := by
  constructor
  · intro x y h
    rw [h]
  · intro α β as bs i j hi hj hi2 hj2 htop
    simp only [clean_annotated_articles, List.get_eq_getElem,
      List.getElem_map] at hi2 hj2 ⊢
    simp only [List.get_eq_getElem] at htop
    rw [cleanArticle, cleanArticle]
    simp [getRawTopic, htop]

/-- C10 witness: two records with the same topic in different batches (with
different payload types) receive the same standardized topic. -/
theorem standardize_topic_deterministic_witness :
    ((clean_annotated_articles [(⟨some "x", 7⟩ : Article Nat)]).get
        ⟨0, by simp [clean_annotated_articles]⟩).topic
      = ((clean_annotated_articles [(⟨some "x", true⟩ : Article Bool)]).get
        ⟨0, by simp [clean_annotated_articles]⟩).topic :=
  standardize_topic_deterministic.2 [(⟨some "x", 7⟩ : Article Nat)]
    [(⟨some "x", true⟩ : Article Bool)] 0 0 (by simp) (by simp)
    (by simp [clean_annotated_articles]) (by simp [clean_annotated_articles])
    (by simp)
